import Mathlib

/-!
Verification development for the News-analyzer weekly aggregation pipeline
(`src/agents/doc_loader/techmeme_loader.py`, `src/agents/doc_loader/unified_news_loader.py`).

The Python code is shallowly embedded: pure functions become Lean functions,
file writes become explicit return values (`Option` results: `none` means the
function returned before any write), the wall clock (`datetime.now()`) becomes
an explicit `now : DateTime` argument, and the external text-generation service
becomes an explicit `llm : String → Except String String` argument.

Calendar arithmetic mirrors CPython's `datetime` module (`_ymd2ord`,
`_ord2ymd`, `weekday`, `_isoweek1monday`, `isocalendar`), which is the library
the source calls into.
-/

/-- Naive datetime, mirroring Python's timezone-naive `datetime.datetime`
(year, month, day, hour, minute, second, microsecond). -/
structure DateTime where
  year : Nat
  month : Nat
  day : Nat
  hour : Nat
  minute : Nat
  second : Nat
  microsecond : Nat
deriving DecidableEq, Repr

/-- `datetime.min` = 0001-01-01 00:00:00. -/
def DateTime.min : DateTime := ⟨1, 1, 1, 0, 0, 0, 0⟩

/-- Leap year test, as in CPython `_is_leap`. -/
def isLeap (y : Nat) : Bool :=
  y % 4 = 0 && (y % 100 ≠ 0 || y % 400 = 0)

/-- Days in a month (CPython `_days_in_month`). -/
def daysInMonth (y m : Nat) : Nat :=
  if m = 2 then (if isLeap y then 29 else 28)
  else if m = 4 || m = 6 || m = 9 || m = 11 then 30
  else 31

/-- Days in the year strictly before month `m` in a non-leap year
(CPython `_DAYS_BEFORE_MONTH`). -/
def daysBeforeMonthTbl (m : Nat) : Nat :=
  match m with
  | 1 => 0 | 2 => 31 | 3 => 59 | 4 => 90 | 5 => 120 | 6 => 151
  | 7 => 181 | 8 => 212 | 9 => 243 | 10 => 273 | 11 => 304 | 12 => 334
  | _ => 0

/-- Days in year `y` strictly before month `m` (CPython `_days_before_month`). -/
def daysBeforeMonth (y m : Nat) : Nat :=
  daysBeforeMonthTbl m + (if 2 < m && isLeap y then 1 else 0)

/-- Number of days before January 1st of year `y` (CPython `_days_before_year`),
over `Int` so that the ISO-week computation can pass year 0. -/
def daysBeforeYearZ (y : Int) : Int :=
  let p := y - 1
  p * 365 + p.fdiv 4 - p.fdiv 100 + p.fdiv 400

/-- Proleptic Gregorian ordinal of a date, day 1 = 0001-01-01
(CPython `_ymd2ord`). -/
def ymd2ord (y m d : Nat) : Nat :=
  (daysBeforeYearZ y).toNat + daysBeforeMonth y m + d

/-- Ordinal of January 1st of year `y` (`Int` year, used by `isoweek1monday`). -/
def ordJan1 (y : Int) : Int :=
  daysBeforeYearZ y + 1

/-- Inverse of `ymd2ord` (CPython `_ord2ymd`). -/
def ord2ymd (nn : Nat) : Nat × Nat × Nat :=
  let n := nn - 1
  let n400 := n / 146097
  let n := n % 146097
  let year0 := n400 * 400 + 1
  let n100 := n / 36524
  let n := n % 36524
  let n4 := n / 1461
  let n := n % 1461
  let n1 := n / 365
  let n := n % 365
  let year := year0 + n100 * 100 + n4 * 4 + n1
  if n1 = 4 || n100 = 4 then
    (year - 1, 12, 31)
  else
    let leapyear := n1 = 3 && (n4 ≠ 24 || n100 = 3)
    let month := (n + 50) >>> 5
    let preceding := daysBeforeMonthTbl month + (if 2 < month && leapyear then 1 else 0)
    let (month, preceding) :=
      if n < preceding then
        (month - 1, preceding - (daysInMonth (if leapyear then 4 else 1) (month - 1)))
      else (month, preceding)
    (year, month, n - preceding + 1)

/-- Ordinal of a `DateTime`'s date. -/
def DateTime.toOrd (t : DateTime) : Nat :=
  ymd2ord t.year t.month t.day

/-- `datetime.weekday()`: Monday = 0 … Sunday = 6 (CPython `(toordinal + 6) % 7`). -/
def DateTime.weekday (t : DateTime) : Nat :=
  (t.toOrd + 6) % 7

/-- Ordinal of the Monday starting ISO week 1 of `year`
(CPython `_isoweek1monday`). -/
def isoweek1monday (year : Int) : Int :=
  let firstday := ordJan1 year
  let firstweekday := (firstday + 6).emod 7
  let week1monday := firstday - firstweekday
  if 3 < firstweekday then week1monday + 7 else week1monday

/-- ISO calendar (year, week, weekday) of a date (CPython `isocalendar`). -/
def DateTime.isocalendar (t : DateTime) : Int × Int × Int :=
  let year : Int := t.year
  let today : Int := t.toOrd
  let week1monday := isoweek1monday year
  let week := (today - week1monday).fdiv 7
  let day := (today - week1monday).fmod 7
  if week < 0 then
    let year := year - 1
    let week1monday := isoweek1monday year
    let week := (today - week1monday).fdiv 7
    let day := (today - week1monday).fmod 7
    (year, week + 1, day + 1)
  else if 52 ≤ week && isoweek1monday (year + 1) ≤ today then
    (year + 1, 1, day + 1)
  else
    (year, week + 1, day + 1)

/-- Left-pad the decimal rendering of `n` with zeros to width 2. -/
def pad2 (n : Nat) : String :=
  if n < 10 then "0" ++ toString n else toString n

/-- Left-pad the decimal rendering of `n` with zeros to width 4. -/
def pad4 (n : Nat) : String :=
  if n < 10 then "000" ++ toString n
  else if n < 100 then "00" ++ toString n
  else if n < 1000 then "0" ++ toString n else toString n

/-- Left-pad the decimal rendering of `n` with zeros to width 6. -/
def pad6 (n : Nat) : String :=
  if n < 10 then "00000" ++ toString n
  else if n < 100 then "0000" ++ toString n
  else if n < 1000 then "000" ++ toString n
  else if n < 10000 then "00" ++ toString n
  else if n < 100000 then "0" ++ toString n else toString n

/-- Python `datetime.isoformat()` on a naive datetime (microseconds omitted
when zero). -/
def DateTime.isoformat (t : DateTime) : String :=
  pad4 t.year ++ "-" ++ pad2 t.month ++ "-" ++ pad2 t.day ++ "T" ++
  pad2 t.hour ++ ":" ++ pad2 t.minute ++ ":" ++ pad2 t.second ++
  (if t.microsecond = 0 then "" else "." ++ pad6 t.microsecond)

/-- Date of an ordinal, with a time of day attached. -/
def dateTimeOfOrd (ord h mi s us : Nat) : DateTime :=
  let (y, m, d) := ord2ymd ord
  ⟨y, m, d, h, mi, s, us⟩

/-- `get_week_start_end(target_date)` from `techmeme_loader.py` lines 27-48:
Monday 00:00:00.000000 of `target`'s week and the following Sunday
23:59:59.999999.  The `target_date=None` default is made explicit by the
caller passing the current instant. -/
def get_week_start_end (target : DateTime) : DateTime × DateTime :=
  let days_since_monday := target.weekday
  let startOrd := target.toOrd - days_since_monday
  let start_of_week := dateTimeOfOrd startOrd 0 0 0 0
  let end_of_week := dateTimeOfOrd (startOrd + 6) 23 59 59 999999
  (start_of_week, end_of_week)

/-- The week-tag string `"{year}-W{week:02d}"` built from an ISO (year, week)
pair, exactly as formatted at `techmeme_loader.py` line 63. -/
def formatWeekTag (year week : Int) : String :=
  toString year.toNat ++ "-W" ++ pad2 week.toNat

/-- `get_week_tag(target_date)` from `techmeme_loader.py` lines 50-63 applied
to a present datetime. -/
def weekTagOf (t : DateTime) : String :=
  let (year, week, _) := t.isocalendar
  formatWeekTag year week

/-- `get_week_tag(target_date=None)`: the `None` default uses `datetime.now()`,
made explicit here as `now`. -/
def get_week_tag (now : DateTime) (target : Option DateTime) : String :=
  match target with
  | none => weekTagOf now
  | some t => weekTagOf t

example : DateTime.weekday ⟨2025, 8, 1, 10, 0, 0, 0⟩ = 4 := by decide
example : DateTime.isocalendar ⟨2025, 8, 1, 10, 0, 0, 0⟩ = (2025, 31, 5) := by decide
example : DateTime.isocalendar ⟨2021, 1, 1, 0, 0, 0, 0⟩ = (2020, 53, 5) := by decide
example : DateTime.isocalendar ⟨2026, 1, 1, 0, 0, 0, 0⟩ = (2026, 1, 4) := by decide
example : DateTime.isocalendar ⟨1, 1, 1, 0, 0, 0, 0⟩ = (1, 1, 1) := by decide
example : weekTagOf ⟨2025, 8, 1, 10, 0, 0, 0⟩ = "2025-W31" := by decide
example : get_week_start_end ⟨2025, 8, 1, 10, 0, 0, 0⟩ =
    (⟨2025, 7, 28, 0, 0, 0, 0⟩, ⟨2025, 8, 3, 23, 59, 59, 999999⟩) := by decide
/-! ## Date-string parsing (`parse_article_date`)

String processing is done on `List Char` (via `String.data`) so that every
definition evaluates inside the kernel. -/

/-- Split a character list on a separator character (Python `str.split(sep)` /
the field structure `strptime` imposes). -/
def splitOnChar (sep : Char) : List Char → List (List Char)
  | [] => [[]]
  | c :: cs =>
    let r := splitOnChar sep cs
    if c = sep then [] :: r
    else
      match r with
      | [] => [[c]]
      | h :: t => (c :: h) :: t

/-- Decimal value of a digit string. -/
def digitsToNat (l : List Char) : Nat :=
  l.foldl (fun n c => n * 10 + (c.toNat - 48)) 0

/-- A decimal field of `minLen` to `maxLen` digits. -/
def parseNatField (l : List Char) (minLen maxLen : Nat) : Option Nat :=
  if minLen ≤ l.length && l.length ≤ maxLen && 0 < l.length && l.all Char.isDigit then
    some (digitsToNat l)
  else none

/-- Abbreviated weekday names accepted by the RFC-822 formats. -/
def weekdayNames : List (List Char) :=
  [['M','o','n'], ['T','u','e'], ['W','e','d'], ['T','h','u'],
   ['F','r','i'], ['S','a','t'], ['S','u','n']]

/-- Abbreviated month names (strptime `%b`). -/
def monthOfName (s : List Char) : Option Nat :=
  match s with
  | ['J','a','n'] => some 1 | ['F','e','b'] => some 2 | ['M','a','r'] => some 3
  | ['A','p','r'] => some 4 | ['M','a','y'] => some 5 | ['J','u','n'] => some 6
  | ['J','u','l'] => some 7 | ['A','u','g'] => some 8 | ['S','e','p'] => some 9
  | ['O','c','t'] => some 10 | ['N','o','v'] => some 11 | ['D','e','c'] => some 12
  | _ => none

/-- Build a `DateTime`, validating field ranges exactly as the `datetime`
constructor does (a failing construction makes the enclosing format attempt
fail, as `ValueError` does in the source). -/
def mkDateTime (y m d h mi sec us : Nat) : Option DateTime :=
  if 1 ≤ y && y ≤ 9999 && 1 ≤ m && m ≤ 12 && 1 ≤ d && d ≤ daysInMonth y m
      && h ≤ 23 && mi ≤ 59 && sec ≤ 59 && us ≤ 999999 then
    some ⟨y, m, d, h, mi, sec, us⟩
  else none

/-- An `HH:MM:SS` time-of-day field. -/
def parseHMS (s : List Char) : Option (Nat × Nat × Nat) :=
  match splitOnChar ':' s with
  | [h, m, sec] =>
    match parseNatField h 1 2, parseNatField m 1 2, parseNatField sec 1 2 with
    | some hn, some mn, some sn => some (hn, mn, sn)
    | _, _, _ => none
  | _ => none

/-- A trailing timezone token (`GMT`, a UTC designator, or a numeric offset).
The source parses such a token and then drops it
(`parsed_date.replace(tzinfo=None)` keeps the clock fields unchanged). -/
def isOffsetToken (s : List Char) : Bool :=
  s = ['G','M','T'] || s = ['U','T','C'] || s = ['U','T'] || s = ['Z'] ||
  (match s with
   | c :: rest => (c = '+' || c = '-') && rest.length = 4 && rest.all Char.isDigit
   | [] => false)

/-- Core of the RFC-822 formats `"%a, %d %b %Y %H:%M:%S"`. -/
def parseRFC822core (wd d mon y t : List Char) : Option DateTime :=
  if wd.getLast? = some ',' && weekdayNames.contains wd.dropLast then
    match parseNatField d 1 2, monthOfName mon, parseNatField y 4 4, parseHMS t with
    | some dn, some mn, some yn, some (h, mi, sec) => mkDateTime yn mn dn h mi sec 0
    | _, _, _, _ => none
  else none

/-- RFC-822 date, with or without a trailing timezone token
(formats `"%a, %d %b %Y %H:%M:%S %z"`, `"... GMT"`, `"..."` of the source). -/
def parseRFC822 (s : List Char) : Option DateTime :=
  match splitOnChar ' ' s with
  | [wd, d, mon, y, t] => parseRFC822core wd d mon y t
  | [wd, d, mon, y, t, tz] =>
    if isOffsetToken tz then parseRFC822core wd d mon y t else none
  | _ => none

/-- A `YYYY-MM-DD` date field. -/
def parseYMD (s : List Char) : Option (Nat × Nat × Nat) :=
  match splitOnChar '-' s with
  | [y, m, d] =>
    match parseNatField y 4 4, parseNatField m 1 2, parseNatField d 1 2 with
    | some yn, some mn, some dn => some (yn, mn, dn)
    | _, _, _ => none
  | _ => none

/-- Drop a trailing UTC designator or numeric offset from a time-of-day field;
the dropped offset does not shift the clock fields, mirroring
`replace(tzinfo=None)`. -/
def stripOffsetSuffix (t : List Char) : List Char :=
  if t.getLast? = some 'Z' then t.dropLast
  else
    match splitOnChar '+' t with
    | [a, _] => a
    | _ =>
      match splitOnChar '-' t with
      | [a, _] => a
      | _ => t

/-- ISO-8601 `YYYY-MM-DDTHH:MM:SS` with optional timezone
(formats `"%Y-%m-%dT%H:%M:%S%z"` and `"%Y-%m-%dT%H:%M:%S"`). -/
def parseISOT (s : List Char) : Option DateTime :=
  match splitOnChar 'T' s with
  | [d, t] =>
    match parseYMD d, parseHMS (stripOffsetSuffix t) with
    | some (yn, mn, dn), some (h, mi, sec) => mkDateTime yn mn dn h mi sec 0
    | _, _ => none
  | _ => none

/-- `"%Y-%m-%d %H:%M:%S"`. -/
def parseISOSpace (s : List Char) : Option DateTime :=
  match splitOnChar ' ' s with
  | [d, t] =>
    match parseYMD d, parseHMS t with
    | some (yn, mn, dn), some (h, mi, sec) => mkDateTime yn mn dn h mi sec 0
    | _, _ => none
  | _ => none

/-- `"%Y-%m-%d"`. -/
def parseDateOnly (s : List Char) : Option DateTime :=
  match parseYMD s with
  | some (yn, mn, dn) => mkDateTime yn mn dn 0 0 0 0
  | none => none

/-- `parse_article_date` from `techmeme_loader.py` lines 65-105: empty input
yields `None`; otherwise the date string is tried against the date formats of
the source, and `None` is returned (not an error) when every attempt fails.

Modelled from the spec: the source first calls the external `dateutil` parser
(a library outside this repository) and falls back to its explicit strptime
format list; per the spec this attempts "a general-purpose date parser first;
on failure … an ordered list of explicit formats (RFC-822 variants, ISO-8601
with/without timezone, date-only)", returning absent when all fail and
normalizing to a timezone-naive value by dropping the offset.  The embedding
implements that format chain; on every format of the chain the external parser
and the explicit formats produce the same naive clock fields. -/
def parse_article_date (s : String) : Option DateTime :=
  if s.data.isEmpty then none
  else
    match parseRFC822 s.data with
    | some d => some d
    | none =>
      match parseISOT s.data with
      | some d => some d
      | none =>
        match parseISOSpace s.data with
        | some d => some d
        | none => parseDateOnly s.data

example : parse_article_date "Fri, 01 Aug 2025 10:00:00 GMT"
    = some ⟨2025, 8, 1, 10, 0, 0, 0⟩ := by decide
example : parse_article_date "" = none := by decide
example : parse_article_date "garbage" = none := by decide
example : parse_article_date "0001-01-01 00:00:00" = some DateTime.min := by decide
example : parse_article_date "0001-01-01" = some DateTime.min := by decide
example : parse_article_date "2025-08-01T10:00:00+05:00"
    = some ⟨2025, 8, 1, 10, 0, 0, 0⟩ := by decide
example : parse_article_date "Sat, 32 Aug 2025 10:00:00 GMT" = none := by decide
example : parse_article_date "2025-02-29" = none := by decide

/-! ## Datetime ordering

Python compares naive `datetime` values lexicographically by
(year, month, day, hour, minute, second, microsecond). -/

/-- Lexicographic order on naive datetimes, as Python's `datetime.__le__`. -/
def dtLe (a b : DateTime) : Prop :=
  a.year < b.year ∨ (a.year = b.year ∧
  (a.month < b.month ∨ (a.month = b.month ∧
  (a.day < b.day ∨ (a.day = b.day ∧
  (a.hour < b.hour ∨ (a.hour = b.hour ∧
  (a.minute < b.minute ∨ (a.minute = b.minute ∧
  (a.second < b.second ∨ (a.second = b.second ∧
  a.microsecond ≤ b.microsecond)))))))))))

instance : DecidableRel dtLe := fun a b => by unfold dtLe; infer_instance

theorem dtLe_refl (a : DateTime) : dtLe a a := by
  unfold dtLe; omega

theorem dtLe_trans {a b c : DateTime} (h1 : dtLe a b) (h2 : dtLe b c) : dtLe a c := by
  obtain ⟨y1, mo1, d1, h1', mi1, s1, us1⟩ := a
  obtain ⟨y2, mo2, d2, h2', mi2, s2, us2⟩ := b
  obtain ⟨y3, mo3, d3, h3', mi3, s3, us3⟩ := c
  simp only [dtLe] at *
  omega

theorem dtLe_total (a b : DateTime) : dtLe a b ∨ dtLe b a := by
  obtain ⟨y1, mo1, d1, h1, mi1, s1, us1⟩ := a
  obtain ⟨y2, mo2, d2, h2, mi2, s2, us2⟩ := b
  simp only [dtLe]
  omega

theorem dtLe_antisymm {a b : DateTime} (h1 : dtLe a b) (h2 : dtLe b a) : a = b := by
  obtain ⟨y1, mo1, d1, h1', mi1, s1, us1⟩ := a
  obtain ⟨y2, mo2, d2, h2', mi2, s2, us2⟩ := b
  simp only [dtLe] at *
  simp only [DateTime.mk.injEq]
  omega

/-- Valid `datetime` values have year, month and day at least 1 (enforced by
the `datetime` constructor, hence by `mkDateTime`). -/
def DateTime.Valid (t : DateTime) : Prop :=
  1 ≤ t.year ∧ 1 ≤ t.month ∧ 1 ≤ t.day

theorem dtLe_min {a : DateTime} (h : a.Valid) : dtLe DateTime.min a := by
  obtain ⟨y, mo, d, h', mi, s, us⟩ := a
  obtain ⟨hy, hm, hd⟩ := h
  simp only [dtLe, DateTime.min] at *
  omega

theorem mkDateTime_valid {y m d h mi sec us : Nat} {t : DateTime}
    (hm : mkDateTime y m d h mi sec us = some t) : t.Valid := by
  unfold mkDateTime at hm
  split at hm
  · rename_i hcond
    simp only [Option.some.injEq] at hm
    subst hm
    simp only [Bool.and_eq_true, decide_eq_true_eq] at hcond
    exact ⟨hcond.1.1.1.1.1.1.1.1.1, hcond.1.1.1.1.1.1.1.2, hcond.1.1.1.1.1.2⟩
  · exact absurd hm (by simp)

/-! ## MD5 (`hashlib.md5`) and UTF-8 encoding

`get_article_id` hashes `link + title` with `hashlib.md5` over the UTF-8
encoding; both externals are implemented here in full (RFC 1321). -/

/-- Truncate to 32 bits. -/
def w32 (n : Nat) : Nat := n % 4294967296

/-- 32-bit left rotation (operand assumed `< 2^32`). -/
def rotl32 (x s : Nat) : Nat := w32 ((x <<< s) ||| (x >>> (32 - s)))

/-- 32-bit complement (operand assumed `< 2^32`). -/
def not32 (x : Nat) : Nat := 4294967295 - x

/-- The 64 MD5 sine-derived constants (RFC 1321). -/
def md5K : List Nat :=
  [0xd76aa478, 0xe8c7b756, 0x242070db, 0xc1bdceee,
   0xf57c0faf, 0x4787c62a, 0xa8304613, 0xfd469501,
   0x698098d8, 0x8b44f7af, 0xffff5bb1, 0x895cd7be,
   0x6b901122, 0xfd987193, 0xa679438e, 0x49b40821,
   0xf61e2562, 0xc040b340, 0x265e5a51, 0xe9b6c7aa,
   0xd62f105d, 0x02441453, 0xd8a1e681, 0xe7d3fbc8,
   0x21e1cde6, 0xc33707d6, 0xf4d50d87, 0x455a14ed,
   0xa9e3e905, 0xfcefa3f8, 0x676f02d9, 0x8d2a4c8a,
   0xfffa3942, 0x8771f681, 0x6d9d6122, 0xfde5380c,
   0xa4beea44, 0x4bdecfa9, 0xf6bb4b60, 0xbebfbc70,
   0x289b7ec6, 0xeaa127fa, 0xd4ef3085, 0x04881d05,
   0xd9d4d039, 0xe6db99e5, 0x1fa27cf8, 0xc4ac5665,
   0xf4292244, 0x432aff97, 0xab9423a7, 0xfc93a039,
   0x655b59c3, 0x8f0ccc92, 0xffeff47d, 0x85845dd1,
   0x6fa87e4f, 0xfe2ce6e0, 0xa3014314, 0x4e0811a1,
   0xf7537e82, 0xbd3af235, 0x2ad7d2bb, 0xeb86d391]

/-- The 64 MD5 per-round shift amounts (RFC 1321). -/
def md5S : List Nat :=
  [7, 12, 17, 22, 7, 12, 17, 22, 7, 12, 17, 22, 7, 12, 17, 22,
   5, 9, 14, 20, 5, 9, 14, 20, 5, 9, 14, 20, 5, 9, 14, 20,
   4, 11, 16, 23, 4, 11, 16, 23, 4, 11, 16, 23, 4, 11, 16, 23,
   6, 10, 15, 21, 6, 10, 15, 21, 6, 10, 15, 21, 6, 10, 15, 21]

/-- One MD5 round step. -/
def md5Step (M : List Nat) (st : Nat × Nat × Nat × Nat) (i : Nat) :
    Nat × Nat × Nat × Nat :=
  let (a, b, c, d) := st
  let (f, g) :=
    if i < 16 then ((b &&& c) ||| (not32 b &&& d), i)
    else if i < 32 then ((b &&& d) ||| (c &&& not32 d), (5 * i + 1) % 16)
    else if i < 48 then (b ^^^ c ^^^ d, (3 * i + 5) % 16)
    else (c ^^^ (b ||| not32 d), (7 * i) % 16)
  let f := w32 (f + a + md5K.getD i 0 + M.getD g 0)
  (d, w32 (b + rotl32 f (md5S.getD i 0)), b, c)

/-- Compress one 16-word block into the running state. -/
def md5Compress (st : Nat × Nat × Nat × Nat) (M : List Nat) :
    Nat × Nat × Nat × Nat :=
  let (a0, b0, c0, d0) := st
  let (a, b, c, d) := (List.range 64).foldl (md5Step M) (a0, b0, c0, d0)
  (w32 (a0 + a), w32 (b0 + b), w32 (c0 + c), w32 (d0 + d))

/-- Little-endian 32-bit words of a byte list. -/
def md5Words : List Nat → List Nat
  | b0 :: b1 :: b2 :: b3 :: rest =>
    (b0 + 256 * b1 + 65536 * b2 + 16777216 * b3) :: md5Words rest
  | _ => []

/-- Process the word stream 16 words (one 512-bit block) at a time. -/
def md5Blocks : (Nat × Nat × Nat × Nat) → List Nat → Nat × Nat × Nat × Nat
  | st, w0 :: w1 :: w2 :: w3 :: w4 :: w5 :: w6 :: w7 ::
        w8 :: w9 :: w10 :: w11 :: w12 :: w13 :: w14 :: w15 :: rest =>
    md5Blocks (md5Compress st [w0, w1, w2, w3, w4, w5, w6, w7,
                               w8, w9, w10, w11, w12, w13, w14, w15]) rest
  | st, _ => st

/-- Little-endian bytes of a 64-bit value. -/
def toLE8 (n : Nat) : List Nat :=
  [n % 256, n / 256 % 256, n / 65536 % 256, n / 16777216 % 256,
   n / 4294967296 % 256, n / 1099511627776 % 256,
   n / 281474976710656 % 256, n / 72057594037927936 % 256]

/-- MD5 padding: `0x80`, zeros to 56 mod 64, then the bit length as a
little-endian 64-bit value. -/
def md5Pad (msg : List Nat) : List Nat :=
  let len := msg.length
  msg ++ 128 :: List.replicate ((119 - len % 64) % 64) 0 ++
    toLE8 ((8 * len) % 18446744073709551616)

/-- Little-endian bytes of a 32-bit value. -/
def toLE4 (n : Nat) : List Nat :=
  [n % 256, n / 256 % 256, n / 65536 % 256, n / 16777216 % 256]

/-- Lowercase hex digit. -/
def hexDigit (n : Nat) : Char :=
  if n < 10 then Char.ofNat (48 + n) else Char.ofNat (87 + n)

/-- Two lowercase hex digits of a byte. -/
def byteHex (b : Nat) : List Char :=
  [hexDigit (b / 16), hexDigit (b % 16)]

/-- `hashlib.md5(bytes).hexdigest()`: the 32-character lowercase hex digest. -/
def md5Hex (msg : List Nat) : String :=
  let padded := md5Pad msg
  let (a, b, c, d) :=
    md5Blocks (0x67452301, 0xefcdab89, 0x98badcfe, 0x10325476) (md5Words padded)
  String.mk ((toLE4 a ++ toLE4 b ++ toLE4 c ++ toLE4 d).foldr
    (fun byte acc => byteHex byte ++ acc) [])

/-- UTF-8 bytes of one character. -/
def utf8Char (c : Char) : List Nat :=
  let n := c.toNat
  if n < 128 then [n]
  else if n < 2048 then [192 + n / 64, 128 + n % 64]
  else if n < 65536 then [224 + n / 4096, 128 + n / 64 % 64, 128 + n % 64]
  else [240 + n / 262144, 128 + n / 4096 % 64, 128 + n / 64 % 64, 128 + n % 64]

/-- `str.encode("utf-8")`. -/
def utf8Encode (s : String) : List Nat :=
  s.data.foldr (fun c acc => utf8Char c ++ acc) []

example : utf8Encode "abc" = [97, 98, 99] := by decide

set_option maxRecDepth 10000 in
example : md5Hex (utf8Encode "abc") = "900150983cd24fb0d6963f7d28e17f72" := by decide

set_option maxRecDepth 10000 in
example : md5Hex (utf8Encode "") = "d41d8cd98f00b204e9800998ecf8427e" := by decide

/-! ## Data model -/

/-- A parsed RSS feed entry, as consumed by `fetch_techmeme_news`.
`none` models a missing key/attribute: `content` is the value of
`entry.content[0]` when the entry carries a non-empty content list,
`summary` the `entry.summary` attribute when present. -/
structure Entry where
  link : Option String
  title : Option String
  description : Option String
  content : Option String
  summary : Option String
  published : Option String
  updated : Option String
deriving DecidableEq, Repr

/-- A stored article record (an element of the per-source JSON store).
`none` models an absent JSON key. -/
structure Article where
  id : Option String
  date : Option String
  title : Option String
  link : Option String
  description : Option String
  content : Option String
  week : Option String
  source : Option String
  processed_at : Option String
  summary : Option String
deriving DecidableEq, Repr

/-- `get_article_id` from `techmeme_loader.py` lines 22-25: the MD5 hex digest
of the UTF-8 encoding of `link + title` (each defaulting to `""`). -/
def get_article_id (e : Entry) : String :=
  md5Hex (utf8Encode (e.link.getD "" ++ e.title.getD ""))

/-- Python `str.strip()` (ASCII whitespace; the strings in scope are ASCII). -/
def isPyWhitespace (c : Char) : Bool :=
  c = ' ' || c = '\t' || c = '\n' || c = '\r' || c = '\x0b' || c = '\x0c'

/-- `str.strip()` on the character list. -/
def trimChars (l : List Char) : List Char :=
  ((l.dropWhile isPyWhitespace).reverse.dropWhile isPyWhitespace).reverse

/-- `str.strip()`. -/
def pyStrip (s : String) : String :=
  String.mk (trimChars s.data)

/-! ## Sorting

Every sort in the source is Python `list.sort(key=lambda x:
parse_article_date(x.get("date", "")) or datetime.min, reverse=True)` /
`sorted(..., reverse=True)`: a stable sort, descending by parsed date with
unparsable dates keyed as `datetime.min`.  A stable sort's output is uniquely
determined by that contract (a permutation, sorted, with tied elements in
input order), so it is modelled by the stable `List.insertionSort` under the
pointwise-reversed key order. -/

/-- The sort key of an article: its parsed date, or `datetime.min` when the
date string is absent or unparsable. -/
def artKeyDate (a : Article) : DateTime :=
  (parse_article_date (a.date.getD "")).getD DateTime.min

/-- The sort order: `a` may precede `b` iff `key b ≤ key a` (descending in
the parsed-date order). -/
def artLe (a b : Article) : Prop :=
  dtLe (artKeyDate b) (artKeyDate a)

instance : DecidableRel artLe := fun a b => by unfold artLe; infer_instance

instance : IsTrans Article artLe :=
  ⟨fun _ _ _ h1 h2 => dtLe_trans h2 h1⟩

instance : IsTotal Article artLe :=
  ⟨fun a b => (dtLe_total (artKeyDate b) (artKeyDate a)).imp id id⟩

/-- Python's stable descending-by-date sort. -/
def sortArticlesDesc (l : List Article) : List Article :=
  l.insertionSort artLe

theorem sortArticlesDesc_perm (l : List Article) :
    List.Perm (sortArticlesDesc l) l :=
  List.perm_insertionSort artLe l

theorem sortArticlesDesc_sorted (l : List Article) :
    (sortArticlesDesc l).Sorted artLe :=
  List.sorted_insertionSort artLe l

/-! ## Source fetcher (`fetch_techmeme_news`) -/

/-- Result object returned by `fetch_techmeme_news` (`none` models a key the
returned dict does not carry). -/
structure FetchResult where
  title : Option String
  news_text : Option String
  link : Option String
  date : Option String
  source : Option String
deriving DecidableEq, Repr

/-- Content extraction with fallback (`techmeme_loader.py` lines 137-145):
prefer the content body, fall back to the summary attribute, then to the
description; strip markup (`BeautifulSoup(...).get_text()`, the external
HTML-to-text function `getText`) and surrounding whitespace. -/
def entryText (getText : String → String) (e : Entry) : String :=
  let content :=
    match e.content with
    | some v => v
    | none =>
      match e.summary with
      | some s => s
      | none => e.description.getD ""
  pyStrip (getText content)

/-- The date string of an entry (`published` or, when falsy, `updated`). -/
def entryDateString (e : Entry) : String :=
  let p := e.published.getD ""
  if p = "" then e.updated.getD "" else p

/-- The new-article record built at `techmeme_loader.py` lines 152-162. -/
def fetchArticle (getText : String → String) (now : DateTime) (e : Entry) : Article :=
  let date_string := entryDateString e
  let article_date := parse_article_date date_string
  let week_tag :=
    match article_date with
    | some d => weekTagOf d
    | none => weekTagOf now
  { id := some (get_article_id e),
    date := some date_string,
    title := some (e.title.getD ""),
    link := some (e.link.getD ""),
    description := some (e.description.getD ""),
    content := some (entryText getText e),
    week := some week_tag,
    source := some "Techmeme",
    processed_at := some now.isoformat,
    summary := none }

/-- The known-ID set of a store (`{article.get("id") for article in
existing_data if "id" in article}`). -/
def storeIds (store : List Article) : List String :=
  store.filterMap (fun a => a.id)

/-- The loop of `fetch_techmeme_news` lines 129-165: for the first
`max_articles` entries in feed order, skip the ones whose ID is already known,
build records for the rest.  The known-ID set is fixed at load time, so the
loop is a `filterMap`. -/
def newArticles (getText : String → String) (now : DateTime)
    (entries : List Entry) (max_articles : Nat) (store : List Article) :
    List Article :=
  (entries.take max_articles).filterMap (fun e =>
    if (storeIds store).contains (get_article_id e) then none
    else some (fetchArticle getText now e))

/-- `fetch_techmeme_news` from `techmeme_loader.py` lines 107-210.
Explicit inputs replace the ambient effects: `getText` the external HTML
stripper, `now` the wall clock, `entries` the parsed feed, `store` the current
contents of `techmeme_news.json`.  Returns the store contents persisted by the
run together with the returned result dict; when the feed is empty the
function returns before writing, so the store is unchanged. -/
def fetch_techmeme_news (getText : String → String) (now : DateTime)
    (entries : List Entry) (max_articles : Nat) (store : List Article) :
    List Article × FetchResult :=
  if entries.isEmpty then
    (store, ⟨some "", some "No news articles found", some "", some "", none⟩)
  else
    let new_articles := newArticles getText now entries max_articles store
    let all_articles := store ++ new_articles
    let result :=
      if new_articles.isEmpty then
        match sortArticlesDesc store with
        | [] => ⟨some "", some "", some "", some "", some "Techmeme"⟩
        | latest :: _ =>
          ⟨some (latest.title.getD ""), some (latest.content.getD ""),
           some (latest.link.getD ""), some (latest.date.getD ""),
           some (latest.source.getD "Techmeme")⟩
      else
        match sortArticlesDesc new_articles with
        | [] => ⟨some "", some "", some "", some "", some "Techmeme"⟩
        | latest :: _ =>
          ⟨some (latest.title.getD ""), some (latest.content.getD ""),
           some (latest.link.getD ""), some (latest.date.getD ""),
           some (latest.source.getD "Techmeme")⟩
    (all_articles, result)

/-- The per-source store persisted by a fetch run. -/
def fetchStore (getText : String → String) (now : DateTime)
    (entries : List Entry) (max_articles : Nat) (store : List Article) :
    List Article :=
  (fetch_techmeme_news getText now entries max_articles store).1

/-! ## Summarizer (`summarize_news`) -/

/-- The dict returned by `summarize_news` (`week`/`source` are absent on the
blank-input path). -/
structure SummaryObj where
  title : String
  summary : String
  link : String
  date : String
  week : Option String
  source : Option String
deriving DecidableEq, Repr

/-- `summarize_news` from `techmeme_loader.py` lines 212-247.  The external
text-generation call (`chain.invoke`, a function of the news text) is the
explicit argument `llm`; a `.error` value models the call raising, which the
source converts into an error-describing summary string.  The `save_to_file`
branch only performs IO and does not affect the returned dict. -/
def summarize_news (llm : String → Except String String) (now : DateTime)
    (title news_text link date : String) (week_tag : Option String) :
    SummaryObj :=
  if pyStrip news_text = "" then
    ⟨title, "No content available for summarization", link, date, none, none⟩
  else
    let wt :=
      match week_tag with
      | some w => w
      | none =>
        match parse_article_date date with
        | some d => weekTagOf d
        | none => weekTagOf now
    match llm news_text with
    | .ok response => ⟨title, response, link, date, some wt, some "Techmeme"⟩
    | .error e =>
      ⟨title, "Error generating summary: " ++ e, link, date, some wt,
       some "Techmeme"⟩

/-! ## Weekly aggregation -/

/-- `get_articles_for_week` from `techmeme_loader.py` lines 249-277: filter
the per-source store to the articles whose `week` field equals the tag, then
sort by parsed date descending.  The store contents are the explicit `store`
argument (a missing or unreadable file is the empty store). -/
def get_articles_for_week (store : List Article) (week_tag : String) :
    List Article :=
  sortArticlesDesc (store.filter (fun a => a.week == some week_tag))

/-- The per-source weekly file written by `save_weekly_articles_with_summary`
(`techmeme-week-<tag>.json`). -/
structure WeeklyBundle where
  week : String
  start_of_week : String
  end_of_week : String
  article_count : Nat
  source : String
  articles : List Article
deriving DecidableEq, Repr

/-- The output article record built at `techmeme_loader.py` lines 308-317. -/
def weeklyOutArticle (llm : String → Except String String) (now : DateTime)
    (week_tag : String) (article : Article) : Article :=
  let summary_obj :=
    summarize_news llm now (article.title.getD "") (article.content.getD "")
      (article.link.getD "") (article.date.getD "") article.week
  { id := article.id,
    date := article.date,
    title := article.title,
    link := article.link,
    description := none,
    content := article.content,
    week := some week_tag,
    source := some "Techmeme",
    processed_at := none,
    summary := some summary_obj.summary }

/-- `save_weekly_articles_with_summary` from `techmeme_loader.py` lines
279-346: build the per-source weekly bundle for `week_tag` and persist it.
`none` models the no-articles early return (lines 289-291), which happens
before any file write; `some b` models writing `b` to
`techmeme-week-<tag>.json`.  Week bounds come from the first (latest-dated)
filtered article's parsed date, falling back to the current instant when that
date does not parse (lines 319-328). -/
def save_weekly_articles_with_summary (llm : String → Except String String)
    (now : DateTime) (store : List Article) (week_tag : String) :
    Option WeeklyBundle :=
  match get_articles_for_week store week_tag with
  | [] => none
  | first :: rest =>
    let weekly_articles_data := first :: rest
    let weekly_articles :=
      weekly_articles_data.map (weeklyOutArticle llm now week_tag)
    let bounds :=
      match parse_article_date (first.date.getD "") with
      | some d => get_week_start_end d
      | none => get_week_start_end now
    some { week := week_tag,
           start_of_week := bounds.1.isoformat,
           end_of_week := bounds.2.isoformat,
           article_count := weekly_articles.length,
           source := "Techmeme",
           articles := weekly_articles }

/-- The combined weekly file written by `create_combined_weekly_data`
(`combined-week-<tag>.json`). -/
structure CombinedBundle where
  week : String
  start_of_week : String
  end_of_week : String
  article_count : Nat
  sources : List String
  articles : List Article
deriving DecidableEq, Repr

/-- Modelled from the spec: `unified_news_loader.py` imports
`get_articles_for_week` for the MIT source from `news_loader.py`, a file of
this repository that is not under `src/`.  Per the spec each source fetcher
exposes the same per-source store shape and the aggregator loads "its
per-source store and filter[s] to entries whose `week` field equals
`week_tag`"; the MIT loader's function is therefore modelled identically to
the Techmeme one present in `src`. -/
def get_mit_articles_for_week (store : List Article) (week_tag : String) :
    List Article :=
  get_articles_for_week store week_tag

/-- The summary-attachment step of `create_combined_weekly_data` (lines
105-118): an article whose `summary` is missing or falsy gets the summarizer's
output attached.  (`summarize_news` here is `news_loader.py`'s, a file not
under `src/`; per the spec its contract is the Summarizer contract, identical
to the Techmeme `summarize_news` in `src`, and only its `summary` field is
read.) -/
def attachSummary (llm : String → Except String String) (now : DateTime)
    (article : Article) : Article :=
  if article.summary.getD "" = "" then
    let summary_obj :=
      summarize_news llm now (article.title.getD "") (article.content.getD "")
        (article.link.getD "") (article.date.getD "") article.week
    { article with summary := some summary_obj.summary }
  else article

/-- `create_combined_weekly_data` from `unified_news_loader.py` lines 67-147:
merge the per-source weekly filters (MIT first, then Techmeme, each tagged
with its source name), attach summaries where missing, sort by parsed date
descending, and build the combined bundle.  `none` models the
no-articles early return (lines 97-99), which happens before any file write;
`some b` models writing `b` to `combined-week-<tag>.json`.  The week bounds
are `get_week_start_end()` of the current instant (line 125).  (The
`sources` set is modelled as the duplicate-free list of source names in
order of first occurrence; Python's `set` iteration order is unspecified and
no claim depends on it.) -/
def create_combined_weekly_data (llm : String → Except String String)
    (now : DateTime) (mitStore techStore : List Article) (week_tag : String) :
    Option CombinedBundle :=
  let mit_articles :=
    (get_mit_articles_for_week mitStore week_tag).map
      (fun a => { a with source := some "MIT AI News" })
  let techmeme_articles :=
    (get_articles_for_week techStore week_tag).map
      (fun a => { a with source := some "Techmeme" })
  let all_articles := mit_articles ++ techmeme_articles
  if all_articles.isEmpty then none
  else
    let articles_with_summaries := all_articles.map (attachSummary llm now)
    let sorted := sortArticlesDesc articles_with_summaries
    let bounds := get_week_start_end now
    some { week := week_tag,
           start_of_week := bounds.1.isoformat,
           end_of_week := bounds.2.isoformat,
           article_count := sorted.length,
           sources := (sorted.map (fun a => a.source.getD "Unknown")).eraseDups,
           articles := sorted }

/-! ## Supporting lemmas -/

theorem parseRFC822core_valid {wd d mon y t : List Char} {dt : DateTime}
    (h : parseRFC822core wd d mon y t = some dt) : dt.Valid := by
  unfold parseRFC822core at h
  split at h
  · split at h
    · exact mkDateTime_valid h
    · cases h
  · cases h

theorem parseRFC822_valid {s : List Char} {dt : DateTime}
    (h : parseRFC822 s = some dt) : dt.Valid := by
  unfold parseRFC822 at h
  split at h
  · exact parseRFC822core_valid h
  · split at h
    · exact parseRFC822core_valid h
    · cases h
  · cases h

theorem parseISOT_valid {s : List Char} {dt : DateTime}
    (h : parseISOT s = some dt) : dt.Valid := by
  unfold parseISOT at h
  split at h
  · split at h
    · exact mkDateTime_valid h
    · cases h
  · cases h

theorem parseISOSpace_valid {s : List Char} {dt : DateTime}
    (h : parseISOSpace s = some dt) : dt.Valid := by
  unfold parseISOSpace at h
  split at h
  · split at h
    · exact mkDateTime_valid h
    · cases h
  · cases h

theorem parseDateOnly_valid {s : List Char} {dt : DateTime}
    (h : parseDateOnly s = some dt) : dt.Valid := by
  unfold parseDateOnly at h
  split at h
  · exact mkDateTime_valid h
  · cases h

/-- Every datetime produced by the date parser satisfies the `datetime`
constructor's field constraints. -/
theorem parse_article_date_valid {s : String} {dt : DateTime}
    (h : parse_article_date s = some dt) : dt.Valid := by
  unfold parse_article_date at h
  split at h
  · cases h
  · split at h
    · rename_i heq
      cases h
      exact parseRFC822_valid heq
    · split at h
      · rename_i heq
        cases h
        exact parseISOT_valid heq
      · split at h
        · rename_i heq
          cases h
          exact parseISOSpace_valid heq
        · exact parseDateOnly_valid h

/-- An article's sort key is either `datetime.min` (absent/unparsable date) or
a parser-produced, hence valid, datetime. -/
theorem artKeyDate_min_or_valid (a : Article) :
    artKeyDate a = DateTime.min ∨ (artKeyDate a).Valid := by
  unfold artKeyDate
  cases h : parse_article_date (a.date.getD "") with
  | none => left; rfl
  | some d => right; exact parse_article_date_valid h

theorem storeIds_append (s t : List Article) :
    storeIds (s ++ t) = storeIds s ++ storeIds t :=
  List.filterMap_append s t _

/-- The persisted store of a fetch run is the previous contents followed by
the run's new articles (when the feed is empty both sides are the unchanged
store). -/
theorem fetchStore_eq_append (getText : String → String) (now : DateTime)
    (entries : List Entry) (max_articles : Nat) (store : List Article) :
    fetchStore getText now entries max_articles store
      = store ++ newArticles getText now entries max_articles store := by
  cases entries with
  | nil => simp [fetchStore, fetch_techmeme_news, newArticles]
  | cons e es => simp [fetchStore, fetch_techmeme_news]

/-- After a fetch run, every processed entry's ID is known to the store. -/
theorem mem_storeIds_fetchStore (getText : String → String) (now : DateTime)
    (entries : List Entry) (max_articles : Nat) (store : List Article) :
    ∀ e ∈ entries.take max_articles,
      get_article_id e ∈
        storeIds (fetchStore getText now entries max_articles store) := by
  intro e he
  rw [fetchStore_eq_append, storeIds_append]
  by_cases hc : (storeIds store).contains (get_article_id e)
  · refine List.mem_append_left _ ?_
    simpa [List.contains, List.elem_iff] using hc
  · refine List.mem_append_right _ ?_
    unfold storeIds newArticles
    refine List.mem_filterMap.mpr ⟨fetchArticle getText now e, ?_, rfl⟩
    refine List.mem_filterMap.mpr ⟨e, he, ?_⟩
    rw [if_neg hc]

/-- When every processed entry's ID is already known, the run adds nothing. -/
theorem newArticles_of_all_known (getText : String → String) (now : DateTime)
    (entries : List Entry) (max_articles : Nat) (store : List Article)
    (h : ∀ e ∈ entries.take max_articles,
      (storeIds store).contains (get_article_id e)) :
    newArticles getText now entries max_articles store = [] := by
  unfold newArticles
  rw [List.filterMap_eq_nil_iff]
  intro e he
  rw [if_pos (h e he)]

/-! ## Claim theorems -/

/-- C5: for every fetch run, the persisted per-source store equals the
previous store contents followed by the newly added articles, in that order;
existing articles are never removed, modified or reordered, so the prior
store is a prefix of the new store. -/
theorem fetch_store_is_append (getText : String → String) (now : DateTime)
    (entries : List Entry) (max_articles : Nat) (store : List Article) :
    fetchStore getText now entries max_articles store
      = store ++ newArticles getText now entries max_articles store :=
  fetchStore_eq_append getText now entries max_articles store

/-- C10: `article_id` is the MD5 hex digest of the UTF-8 encoding of `link`
concatenated directly with `title` (no separator); consequently any two
entries whose concatenations coincide receive the same ID, and in particular
the distinct entries `("ab", "c")` and `("a", "bc")` collide, so deduplication
treats them as the same article. -/
theorem article_id_md5_concat_collision :
    (∀ e : Entry,
      get_article_id e = md5Hex (utf8Encode (e.link.getD "" ++ e.title.getD ""))) ∧
    (∀ e1 e2 : Entry,
      e1.link.getD "" ++ e1.title.getD "" = e2.link.getD "" ++ e2.title.getD "" →
      get_article_id e1 = get_article_id e2) ∧
    get_article_id ⟨some "ab", some "c", none, none, none, none, none⟩
      = get_article_id ⟨some "a", some "bc", none, none, none, none, none⟩ ∧
    (⟨some "ab", some "c", none, none, none, none, none⟩ : Entry)
      ≠ ⟨some "a", some "bc", none, none, none, none, none⟩ := by
  refine ⟨fun e => rfl, fun e1 e2 h => ?_, ?_, by decide⟩
  · unfold get_article_id
    rw [h]
  · exact congrArg (fun s => md5Hex (utf8Encode s))
      (show ("ab" : String) ++ "c" = "a" ++ "bc" by decide)

/-- Witness for C10 at the concrete colliding pair. -/
theorem article_id_md5_concat_collision_witness :
    get_article_id ⟨some "ab", some "c", none, none, none, none, none⟩
      = get_article_id ⟨some "a", some "bc", none, none, none, none, none⟩ :=
  article_id_md5_concat_collision.2.1 _ _ (by decide)

/-- C9: `week_tag` formats the ISO calendar (year, week) of its argument as
`"{year}-W{week:02d}"`, using the current instant when the argument is
absent; parsing `"Fri, 01 Aug 2025 10:00:00 GMT"` and applying `week_tag`
yields `"2025-W31"`. -/
theorem week_tag_iso_format :
    (∀ (now d : DateTime),
      get_week_tag now (some d) = formatWeekTag d.isocalendar.1 d.isocalendar.2.1) ∧
    (∀ now : DateTime,
      get_week_tag now none = formatWeekTag now.isocalendar.1 now.isocalendar.2.1) ∧
    (∀ now : DateTime,
      get_week_tag now (parse_article_date "Fri, 01 Aug 2025 10:00:00 GMT")
        = "2025-W31") := by
  refine ⟨fun now d => rfl, fun now => rfl, fun now => ?_⟩
  rw [show parse_article_date "Fri, 01 Aug 2025 10:00:00 GMT"
      = some ⟨2025, 8, 1, 10, 0, 0, 0⟩ by decide]
  show weekTagOf ⟨2025, 8, 1, 10, 0, 0, 0⟩ = "2025-W31"
  decide

/-- C8: the summarizer returns the fixed "no content" marker on blank input
without invoking the external service (the result does not depend on the
service at all), and converts a service failure into an error-describing
summary string instead of propagating the exception (in the embedding,
`summarize_news` is a total function: it never raises). -/
theorem summarize_blank_marker_and_error_string
    (llm llm2 : String → Except String String) (now now2 : DateTime)
    (title text link date : String) (wt : Option String) :
    (pyStrip text = "" →
      summarize_news llm now title text link date wt
        = summarize_news llm2 now2 title text link date wt ∧
      (summarize_news llm now title text link date wt).summary
        = "No content available for summarization") ∧
    (∀ e, pyStrip text ≠ "" → llm text = Except.error e →
      (summarize_news llm now title text link date wt).summary
        = "Error generating summary: " ++ e) := by
  constructor
  · intro h
    unfold summarize_news
    rw [if_pos h, if_pos h]
    exact ⟨rfl, rfl⟩
  · intro e hne herr
    unfold summarize_news
    rw [if_neg hne, herr]

/-- Witness for C8: blank input with two different services, and a failing
service on non-blank input. -/
theorem summarize_blank_marker_and_error_string_witness :
    (summarize_news (fun _ => Except.ok "S") ⟨2025, 1, 1, 0, 0, 0, 0⟩
        "t" "  " "l" "d" none
      = summarize_news (fun _ => Except.error "x") ⟨2024, 1, 1, 0, 0, 0, 0⟩
        "t" "  " "l" "d" none ∧
     (summarize_news (fun _ => Except.ok "S") ⟨2025, 1, 1, 0, 0, 0, 0⟩
        "t" "  " "l" "d" none).summary
      = "No content available for summarization") ∧
    (summarize_news (fun _ => Except.error "boom") ⟨2025, 1, 1, 0, 0, 0, 0⟩
        "t" "body" "l" "d" none).summary
      = "Error generating summary: " ++ "boom" :=
  ⟨(summarize_blank_marker_and_error_string (fun _ => Except.ok "S")
      (fun _ => Except.error "x") ⟨2025, 1, 1, 0, 0, 0, 0⟩
      ⟨2024, 1, 1, 0, 0, 0, 0⟩ "t" "  " "l" "d" none).1 (by decide),
   (summarize_blank_marker_and_error_string (fun _ => Except.error "boom")
      (fun _ => Except.error "boom") ⟨2025, 1, 1, 0, 0, 0, 0⟩
      ⟨2025, 1, 1, 0, 0, 0, 0⟩ "t" "body" "l" "d" none).2 "boom"
     (by decide) rfl⟩

/-- C7: aggregating a week with zero matching articles across all sources
returns the absent result (the function returns before any file write, so no
bundle file is created or overwritten). -/
theorem aggregate_empty_week_no_bundle (llm : String → Except String String)
    (now : DateTime) (mitStore techStore : List Article) (week_tag : String)
    (hmit : mitStore.filter (fun a => a.week == some week_tag) = [])
    (htech : techStore.filter (fun a => a.week == some week_tag) = []) :
    create_combined_weekly_data llm now mitStore techStore week_tag = none := by
  unfold create_combined_weekly_data get_mit_articles_for_week
    get_articles_for_week
  rw [hmit, htech]
  simp [sortArticlesDesc, List.insertionSort]

/-- Witness for C7: stores holding only week-32 articles, aggregated for
week 31. -/
theorem aggregate_empty_week_no_bundle_witness :
    create_combined_weekly_data (fun _ => Except.ok "S")
      ⟨2025, 9, 10, 0, 0, 0, 0⟩
      [⟨none, none, none, none, none, none, some "2025-W32", none, none, none⟩]
      [⟨none, none, none, none, none, none, some "2025-W32", none, none, none⟩]
      "2025-W31" = none :=
  aggregate_empty_week_no_bundle _ _ _ _ _ (by decide) (by decide)

/-- C2: re-running fetch against the unchanged feed adds zero new articles:
after a fetch run every processed entry's `article_id` is in the store's
known-ID set, so a second run (under any wall clock and HTML stripper)
persists exactly the same store. -/
theorem fetch_idempotent_on_store (getText getText2 : String → String)
    (now now2 : DateTime) (entries : List Entry) (max_articles : Nat)
    (store : List Article) :
    fetchStore getText2 now2 entries max_articles
        (fetchStore getText now entries max_articles store)
      = fetchStore getText now entries max_articles store ∧
    ∀ e ∈ entries.take max_articles,
      get_article_id e ∈
        storeIds (fetchStore getText now entries max_articles store) := by
  refine ⟨?_, mem_storeIds_fetchStore getText now entries max_articles store⟩
  rw [fetchStore_eq_append getText2 now2 entries max_articles
    (fetchStore getText now entries max_articles store)]
  rw [newArticles_of_all_known getText2 now2 entries max_articles
    (fetchStore getText now entries max_articles store) ?_]
  · exact List.append_nil _
  · intro e he
    have hm := mem_storeIds_fetchStore getText now entries max_articles store e he
    simpa [List.contains, List.elem_iff] using hm

/-- Witness for C2: a one-entry feed fetched twice into an initially empty
store. -/
theorem fetch_idempotent_on_store_witness :
    (fetchStore (fun s => s) ⟨2025, 9, 11, 0, 0, 0, 0⟩
        [⟨some "http://a", some "T1", some "d", none, some "body",
          some "Fri, 01 Aug 2025 10:00:00 GMT", none⟩] 10
        (fetchStore (fun s => s) ⟨2025, 9, 10, 0, 0, 0, 0⟩
          [⟨some "http://a", some "T1", some "d", none, some "body",
            some "Fri, 01 Aug 2025 10:00:00 GMT", none⟩] 10 [])
      = fetchStore (fun s => s) ⟨2025, 9, 10, 0, 0, 0, 0⟩
          [⟨some "http://a", some "T1", some "d", none, some "body",
            some "Fri, 01 Aug 2025 10:00:00 GMT", none⟩] 10 []) ∧
    get_article_id ⟨some "http://a", some "T1", some "d", none, some "body",
        some "Fri, 01 Aug 2025 10:00:00 GMT", none⟩ ∈
      storeIds (fetchStore (fun s => s) ⟨2025, 9, 10, 0, 0, 0, 0⟩
        [⟨some "http://a", some "T1", some "d", none, some "body",
          some "Fri, 01 Aug 2025 10:00:00 GMT", none⟩] 10 []) :=
  ⟨(fetch_idempotent_on_store (fun s => s) (fun s => s)
      ⟨2025, 9, 10, 0, 0, 0, 0⟩ ⟨2025, 9, 11, 0, 0, 0, 0⟩ _ 10 []).1,
   (fetch_idempotent_on_store (fun s => s) (fun s => s)
      ⟨2025, 9, 10, 0, 0, 0, 0⟩ ⟨2025, 9, 11, 0, 0, 0, 0⟩ _ 10 []).2 _
     (by decide)⟩

/-- The identifying fields of an article that the weekly output record copies
verbatim from the store record (id, title, link, date, content). -/
def coreFields (a : Article) :
    Option String × Option String × Option String × Option String ×
      Option String :=
  (a.id, a.title, a.link, a.date, a.content)

/-- C4: for a per-source store holding weeks W1 and W2 (W1 ≠ W2), aggregating
for W1 produces a bundle whose articles are exactly the store articles with
`week = W1` (same id/title/link/date/content, up to the sort's reordering and
the summary/source/week augmentation the aggregator performs), every bundle
article carries the bundle's week, and `article_count` is the filtered
count. -/
theorem aggregate_week_filter (llm : String → Except String String)
    (now : DateTime) (store : List Article) (W1 W2 : String)
    (_hne : W1 ≠ W2)
    (h1 : ∃ a ∈ store, a.week = some W1)
    (_h2 : ∃ a ∈ store, a.week = some W2) :
    (save_weekly_articles_with_summary llm now store W1).isSome ∧
    ∀ b, save_weekly_articles_with_summary llm now store W1 = some b →
      List.Perm (b.articles.map coreFields)
        ((store.filter (fun a => a.week == some W1)).map coreFields) ∧
      (∀ a ∈ b.articles, a.week = some W1) ∧
      b.article_count = (store.filter (fun a => a.week == some W1)).length := by
  have hfil : store.filter (fun a => a.week == some W1) ≠ [] := by
    obtain ⟨a, ha, hw⟩ := h1
    have hmem : a ∈ store.filter (fun a => a.week == some W1) :=
      List.mem_filter.mpr ⟨ha, by simp [hw]⟩
    intro hnil
    rw [hnil] at hmem
    cases hmem
  have hsortne : get_articles_for_week store W1 ≠ [] := by
    intro hnil
    apply hfil
    have hp := sortArticlesDesc_perm (store.filter (fun a => a.week == some W1))
    rw [show sortArticlesDesc (store.filter (fun a => a.week == some W1))
        = get_articles_for_week store W1 from rfl, hnil] at hp
    exact hp.symm.eq_nil
  cases hg : get_articles_for_week store W1 with
  | nil => exact absurd hg hsortne
  | cons first rest =>
    constructor
    · unfold save_weekly_articles_with_summary
      rw [hg]
      rfl
    · intro b hb
      unfold save_weekly_articles_with_summary at hb
      rw [hg] at hb
      simp only [Option.some.injEq] at hb
      subst hb
      refine ⟨?_, ?_, ?_⟩
      · show List.Perm
          (((first :: rest).map (weeklyOutArticle llm now W1)).map coreFields) _
        rw [List.map_map]
        rw [show coreFields ∘ weeklyOutArticle llm now W1 = coreFields from
          funext fun a => rfl]
        rw [← hg]
        exact (sortArticlesDesc_perm _).map coreFields
      · intro a ha
        obtain ⟨x, -, rfl⟩ := List.mem_map.mp ha
        rfl
      · show ((first :: rest).map (weeklyOutArticle llm now W1)).length = _
        rw [List.length_map, ← hg]
        unfold get_articles_for_week sortArticlesDesc
        exact List.length_insertionSort _ _
/-- Witness for C4: a two-article store in weeks 2025-W31 and 2025-W32,
aggregated for 2025-W31. -/
theorem aggregate_week_filter_witness :
    (save_weekly_articles_with_summary (fun _ => Except.ok "S")
      ⟨2025, 9, 10, 0, 0, 0, 0⟩
      [⟨some "i1", some "Fri, 01 Aug 2025 10:00:00 GMT", some "T1",
        some "L1", none, some "C1", some "2025-W31", some "Techmeme",
        none, none⟩,
       ⟨some "i2", some "Mon, 04 Aug 2025 09:00:00 GMT", some "T2",
        some "L2", none, some "C2", some "2025-W32", some "Techmeme",
        none, none⟩]
      "2025-W31").isSome :=
  (aggregate_week_filter (fun _ => Except.ok "S") ⟨2025, 9, 10, 0, 0, 0, 0⟩
    _ "2025-W31" "2025-W32" (by decide) (by decide) (by decide)).1

/-- Membership in a weekly filter implies membership in the store (with the
right week tag). -/
theorem mem_of_mem_get_articles {store : List Article} {W : String}
    {a : Article} (h : a ∈ get_articles_for_week store W) :
    a ∈ store ∧ a.week = some W := by
  unfold get_articles_for_week sortArticlesDesc at h
  rw [List.mem_insertionSort] at h
  have hm := List.mem_filter.mp h
  exact ⟨hm.1, by simpa using hm.2⟩

/-- C6: every article record in a persisted weekly bundle (per-source or
combined) carries a non-null title, link and summary, provided the store
records carry title and link — an invariant the fetcher itself establishes
and preserves, stated as the first conjunct.  The aggregators attach a
summary (possibly an error string) to every article lacking one before the
bundle is written. -/
theorem bundle_articles_fields_present (getText : String → String)
    (llm : String → Except String String) (now : DateTime)
    (entries : List Entry) (max_articles : Nat)
    (store mitStore techStore : List Article) (W : String) :
    ((∀ a ∈ store, a.title.isSome ∧ a.link.isSome) →
      ∀ a ∈ fetchStore getText now entries max_articles store,
        a.title.isSome ∧ a.link.isSome) ∧
    (∀ b, save_weekly_articles_with_summary llm now store W = some b →
      (∀ a ∈ store, a.title.isSome ∧ a.link.isSome) →
      ∀ a ∈ b.articles, a.title.isSome ∧ a.link.isSome ∧ a.summary.isSome) ∧
    (∀ b, create_combined_weekly_data llm now mitStore techStore W = some b →
      (∀ a ∈ mitStore, a.title.isSome ∧ a.link.isSome) →
      (∀ a ∈ techStore, a.title.isSome ∧ a.link.isSome) →
      ∀ a ∈ b.articles, a.title.isSome ∧ a.link.isSome ∧ a.summary.isSome) := by
  refine ⟨?_, ?_, ?_⟩
  · intro hinv a ha
    rw [fetchStore_eq_append] at ha
    rcases List.mem_append.mp ha with hold | hnew
    · exact hinv a hold
    · obtain ⟨e, -, hfe⟩ := List.mem_filterMap.mp hnew
      split at hfe
      · cases hfe
      · simp only [Option.some.injEq] at hfe
        subst hfe
        exact ⟨rfl, rfl⟩
  · intro b hb hinv a ha
    unfold save_weekly_articles_with_summary at hb
    split at hb
    · cases hb
    · rename_i first rest heq
      simp only [Option.some.injEq] at hb
      subst hb
      obtain ⟨x, hx, rfl⟩ := List.mem_map.mp ha
      rw [← heq] at hx
      have hxs := (mem_of_mem_get_articles hx).1
      obtain ⟨ht, hl⟩ := hinv x hxs
      exact ⟨ht, hl, rfl⟩
  · intro b hb hmit htech a ha
    unfold create_combined_weekly_data at hb
    dsimp only at hb
    split at hb
    · cases hb
    · simp only [Option.some.injEq] at hb
      subst hb
      simp only [sortArticlesDesc] at ha
      rw [List.mem_insertionSort] at ha
      obtain ⟨x, hx, rfl⟩ := List.mem_map.mp ha
      have hx_fields : x.title.isSome ∧ x.link.isSome := by
        rcases List.mem_append.mp hx with hxm | hxt
        · obtain ⟨y, hy, rfl⟩ := List.mem_map.mp hxm
          have hys := (mem_of_mem_get_articles hy).1
          exact hmit y hys
        · obtain ⟨y, hy, rfl⟩ := List.mem_map.mp hxt
          have hys := (mem_of_mem_get_articles hy).1
          exact htech y hys
      unfold attachSummary
      split
      · exact ⟨hx_fields.1, hx_fields.2, rfl⟩
      · rename_i hne
        refine ⟨hx_fields.1, hx_fields.2, ?_⟩
        cases hsum : x.summary with
        | none => rw [hsum] at hne; exact absurd rfl hne
        | some s => rfl

/-- Witness for C6: a fetched store aggregated into a per-source weekly
bundle. -/
theorem bundle_articles_fields_present_witness :
    ∀ a ∈ fetchStore (fun s => s) ⟨2025, 9, 10, 0, 0, 0, 0⟩
        [⟨some "http://a", some "T1", some "d", none, some "body",
          some "Fri, 01 Aug 2025 10:00:00 GMT", none⟩] 10 [],
      a.title.isSome ∧ a.link.isSome :=
  (bundle_articles_fields_present (fun s => s) (fun _ => Except.ok "S")
    ⟨2025, 9, 10, 0, 0, 0, 0⟩
    [⟨some "http://a", some "T1", some "d", none, some "body",
      some "Fri, 01 Aug 2025 10:00:00 GMT", none⟩] 10 [] [] [] "2025-W31").1
    (by intro a ha; cases ha)
/-- C1 (amended): for the per-source (Techmeme) weekly bundle, the week
bounds are computed from the first article's parsed date when that date
parses, and from the current instant only when it does not; the combined
bundle's week bounds, by contrast, are always computed from the current
instant, regardless of the articles' dates. -/
theorem week_bounds_per_source_from_date_combined_from_now
    (llm : String → Except String String) (now : DateTime)
    (store mitStore techStore : List Article) (W : String) :
    (∀ b first rest, get_articles_for_week store W = first :: rest →
      save_weekly_articles_with_summary llm now store W = some b →
      ((∃ d, parse_article_date (first.date.getD "") = some d ∧
          b.start_of_week = (get_week_start_end d).1.isoformat ∧
          b.end_of_week = (get_week_start_end d).2.isoformat) ∨
       (parse_article_date (first.date.getD "") = none ∧
          b.start_of_week = (get_week_start_end now).1.isoformat ∧
          b.end_of_week = (get_week_start_end now).2.isoformat))) ∧
    (∀ b, create_combined_weekly_data llm now mitStore techStore W = some b →
      b.start_of_week = (get_week_start_end now).1.isoformat ∧
      b.end_of_week = (get_week_start_end now).2.isoformat) := by
  constructor
  · intro b first rest hg hb
    unfold save_weekly_articles_with_summary at hb
    rw [hg] at hb
    simp only [Option.some.injEq] at hb
    subst hb
    cases hp : parse_article_date (first.date.getD "") with
    | some d => exact Or.inl ⟨d, rfl, rfl, rfl⟩
    | none => exact Or.inr ⟨rfl, rfl, rfl⟩
  · intro b hb
    unfold create_combined_weekly_data at hb
    dsimp only at hb
    split at hb
    · cases hb
    · simp only [Option.some.injEq] at hb
      subst hb
      exact ⟨rfl, rfl⟩

set_option maxRecDepth 100000 in
set_option maxHeartbeats 2000000 in
/-- C1 counterexample to the claim as stated: an aggregation run producing a
Weekly Bundle (the combined bundle) whose first article's date parses to
2025-08-01 (a week starting Monday 2025-07-28), executed at the instant
2025-09-10, yields `start_of_week` 2025-09-08 — the current instant's week —
although the article's date parsed successfully. -/
theorem week_bounds_claim_counterexample :
    create_combined_weekly_data (fun _ => Except.ok "X")
        ⟨2025, 9, 10, 12, 0, 0, 0⟩ []
        [⟨some "i1", some "Fri, 01 Aug 2025 10:00:00 GMT", some "T1",
          some "L1", none, some "C1", some "2025-W31", some "Techmeme",
          none, some "S"⟩] "2025-W31"
      = some ⟨"2025-W31", "2025-09-08T00:00:00", "2025-09-14T23:59:59.999999",
          1, ["Techmeme"],
          [⟨some "i1", some "Fri, 01 Aug 2025 10:00:00 GMT", some "T1",
            some "L1", none, some "C1", some "2025-W31", some "Techmeme",
            none, some "S"⟩]⟩ ∧
    parse_article_date "Fri, 01 Aug 2025 10:00:00 GMT"
      = some ⟨2025, 8, 1, 10, 0, 0, 0⟩ ∧
    (get_week_start_end ⟨2025, 8, 1, 10, 0, 0, 0⟩).1.isoformat
      = "2025-07-28T00:00:00" ∧
    ("2025-09-08T00:00:00" : String) ≠ "2025-07-28T00:00:00" := by
  refine ⟨by decide, by decide, by decide, by decide⟩

set_option maxRecDepth 100000 in
set_option maxHeartbeats 2000000 in
/-- Witness for the amended C1 at a concrete per-source store whose first
article's date parses. -/
theorem week_bounds_per_source_from_date_combined_from_now_witness :
    (∃ d, parse_article_date
        ((⟨some "i1", some "Fri, 01 Aug 2025 10:00:00 GMT", some "T1",
           some "L1", none, some "C1", some "2025-W31", some "Techmeme",
           none, some "S"⟩ : Article).date.getD "") = some d ∧
      (⟨"2025-W31", "2025-07-28T00:00:00", "2025-08-03T23:59:59.999999", 1,
        "Techmeme",
        [⟨some "i1", some "Fri, 01 Aug 2025 10:00:00 GMT", some "T1",
          some "L1", none, some "C1", some "2025-W31", some "Techmeme",
          none, some "X"⟩]⟩ : WeeklyBundle).start_of_week
        = (get_week_start_end d).1.isoformat ∧
      (⟨"2025-W31", "2025-07-28T00:00:00", "2025-08-03T23:59:59.999999", 1,
        "Techmeme",
        [⟨some "i1", some "Fri, 01 Aug 2025 10:00:00 GMT", some "T1",
          some "L1", none, some "C1", some "2025-W31", some "Techmeme",
          none, some "X"⟩]⟩ : WeeklyBundle).end_of_week
        = (get_week_start_end d).2.isoformat) ∨
    (parse_article_date
        ((⟨some "i1", some "Fri, 01 Aug 2025 10:00:00 GMT", some "T1",
           some "L1", none, some "C1", some "2025-W31", some "Techmeme",
           none, some "S"⟩ : Article).date.getD "") = none ∧
      (⟨"2025-W31", "2025-07-28T00:00:00", "2025-08-03T23:59:59.999999", 1,
        "Techmeme",
        [⟨some "i1", some "Fri, 01 Aug 2025 10:00:00 GMT", some "T1",
          some "L1", none, some "C1", some "2025-W31", some "Techmeme",
          none, some "X"⟩]⟩ : WeeklyBundle).start_of_week
        = (get_week_start_end ⟨2025, 9, 10, 12, 0, 0, 0⟩).1.isoformat ∧
      (⟨"2025-W31", "2025-07-28T00:00:00", "2025-08-03T23:59:59.999999", 1,
        "Techmeme",
        [⟨some "i1", some "Fri, 01 Aug 2025 10:00:00 GMT", some "T1",
          some "L1", none, some "C1", some "2025-W31", some "Techmeme",
          none, some "X"⟩]⟩ : WeeklyBundle).end_of_week
        = (get_week_start_end ⟨2025, 9, 10, 12, 0, 0, 0⟩).2.isoformat) :=
  (week_bounds_per_source_from_date_combined_from_now (fun _ => Except.ok "X")
    ⟨2025, 9, 10, 12, 0, 0, 0⟩
    [⟨some "i1", some "Fri, 01 Aug 2025 10:00:00 GMT", some "T1",
      some "L1", none, some "C1", some "2025-W31", some "Techmeme",
      none, some "S"⟩] [] [] "2025-W31").1 _ _ [] (by decide) (by decide)

/-- Stability of the stable sort, per key class: the subsequence of articles
with any given sort key is unchanged by the sort (tied articles keep their
original relative order). -/
theorem sortArticlesDesc_filter_eq (l : List Article) (k : DateTime) :
    (sortArticlesDesc l).filter (fun a => artKeyDate a == k)
      = l.filter (fun a => artKeyDate a == k) := by
  have hpair : (l.filter (fun a => artKeyDate a == k)).Pairwise artLe := by
    apply List.pairwise_of_forall_mem_list
    intro a ha b hb
    have hka : artKeyDate a = k := by
      simpa using (List.mem_filter.mp ha).2
    have hkb : artKeyDate b = k := by
      simpa using (List.mem_filter.mp hb).2
    unfold artLe
    rw [hka, hkb]
    exact dtLe_refl k
  have hsub : (l.filter (fun a => artKeyDate a == k)).Sublist
      (sortArticlesDesc l) :=
    List.sublist_insertionSort hpair (List.filter_sublist l)
  have hsub2 : (l.filter (fun a => artKeyDate a == k)).Sublist
      ((sortArticlesDesc l).filter (fun a => artKeyDate a == k)) := by
    have h2 := hsub.filter (fun a => artKeyDate a == k)
    rwa [List.filter_filter, show (fun a => (artKeyDate a == k) &&
      (artKeyDate a == k)) = (fun a => artKeyDate a == k) from
      funext fun a => Bool.and_self _] at h2
  have hlen : ((sortArticlesDesc l).filter (fun a => artKeyDate a == k)).length
      = (l.filter (fun a => artKeyDate a == k)).length :=
    ((sortArticlesDesc_perm l).filter _).length_eq
  exact (hsub2.eq_of_length hlen.symm).symm

/-- C3 (amended): the merged article list is sorted by parsed date descending
(a permutation of the input, pairwise-descending in the key order); the sort
is stable (every equal-key class keeps its original order); an article whose
date fails to parse is keyed as the minimum representable datetime; and such
an article sorts after every article whose parsed date is *not* the minimum —
an article whose date parses exactly to `datetime.min` ties with unparsable
articles, and the tie is broken by input order. -/
theorem sort_desc_stable_unparsable_min (l : List Article) :
    (sortArticlesDesc l).Sorted artLe ∧
    List.Perm (sortArticlesDesc l) l ∧
    (∀ k : DateTime, (sortArticlesDesc l).filter (fun a => artKeyDate a == k)
        = l.filter (fun a => artKeyDate a == k)) ∧
    (∀ a : Article, parse_article_date (a.date.getD "") = none →
      artKeyDate a = DateTime.min) ∧
    (sortArticlesDesc l).Pairwise (fun a b =>
      parse_article_date (a.date.getD "") = none →
        artKeyDate b = DateTime.min) := by
  refine ⟨sortArticlesDesc_sorted l, sortArticlesDesc_perm l,
    fun k => sortArticlesDesc_filter_eq l k, fun a h => ?_, ?_⟩
  · unfold artKeyDate
    rw [h]
    rfl
  · refine (sortArticlesDesc_sorted l).imp ?_
    intro a b hab hnone
    have hka : artKeyDate a = DateTime.min := by
      unfold artKeyDate
      rw [hnone]
      rfl
    unfold artLe at hab
    rw [hka] at hab
    rcases artKeyDate_min_or_valid b with hmin | hval
    · exact hmin
    · exact dtLe_antisymm hab (dtLe_min hval)

set_option maxRecDepth 40000 in
/-- C3 counterexample to the claim as stated: with article A carrying an
unparsable date and article B a date that parses exactly to the minimum
representable datetime (`0001-01-01`), both sort keys are `datetime.min`,
the stable sort keeps input order `[A, B]`, and the unparsable A sorts
*before* the parsable B — not after every article with a parsable date. -/
theorem sort_desc_claim_counterexample :
    parse_article_date "garbage" = none ∧
    parse_article_date "0001-01-01" = some DateTime.min ∧
    sortArticlesDesc
        [⟨none, some "garbage", none, none, none, none, none, none, none,
          none⟩,
         ⟨none, some "0001-01-01", none, none, none, none, none, none, none,
          none⟩]
      = [⟨none, some "garbage", none, none, none, none, none, none, none,
          none⟩,
         ⟨none, some "0001-01-01", none, none, none, none, none, none, none,
          none⟩] :=
  ⟨by decide, by decide, by decide⟩

/-- Witness for the amended C3: an article with no date field is keyed as
`datetime.min`. -/
theorem sort_desc_stable_unparsable_min_witness :
    artKeyDate ⟨none, none, none, none, none, none, none, none, none, none⟩
      = DateTime.min :=
  (sort_desc_stable_unparsable_min []).2.2.2.1
    ⟨none, none, none, none, none, none, none, none, none, none⟩ (by decide)
